import Mathlib

/-!
# Verification of the fxoanda custom (de)serialization layer

This file shallowly embeds the custom serde codecs of the `fxoanda` crate
and proves the specification's testable properties about them.

* `serints` (src/fxoanda_serdes/src/serints/mod.rs) — an `Option<i32>` codec:
  `serialize` writes `Some(v)` as the JSON string of `v.to_string()` and
  `None` as JSON null; `deserialize` reads null as `None`, and otherwise an
  untagged `Int(i32) | Str(String)`, parsing strings with Rust's
  `str::parse::<i32>`.
* `serdates` — the timestamp codec.  Its source module is not part of the
  repository snapshot (only its callers in `src/src/instrument.rs` and the
  tests in `src/tests/serde_tests.rs` reference `fxoanda_serdes::serdates`),
  so it is modelled from the specification's §4.2.
* The error plumbing of `FxError` (src/src/errors.rs) and the response
  decoding step of `GetInstrumentCandlesRequest::remote`
  (src/src/instrument.rs line 304).

Machine integers are modelled as `Int` with explicit 32-bit bounds; JSON is
a small inductive mirroring `serde_json::Value` (numbers split into the
integer and floating-point representations `serde_json` distinguishes).
-/

namespace Fxoanda

/-! ## JSON value model (serde_json::Value)

`serde_json` stores a number as `u64`, `i64` or `f64`.  Deserializing an
`i32` from an integer number succeeds exactly when the value fits in the
32-bit signed range; deserializing an `i32` from a float number always
fails with an invalid-type error, whatever its value.  We therefore model
a number as either an unbounded integer or an (opaque) rational standing
for the `f64` payload. -/

inductive JNumber : Type where
  | int (i : Int)
  | float (q : Rat)
deriving DecidableEq

inductive Json : Type where
  | null
  | bool (b : Bool)
  | num (n : JNumber)
  | str (s : String)
  | arr (elems : List Json)
  | obj (fields : List (String × Json))

instance instDecEqExcept {ε α : Type} [DecidableEq ε] [DecidableEq α] :
    DecidableEq (Except ε α) := fun a b =>
  match a, b with
  | .ok x, .ok y =>
    if h : x = y then .isTrue (by rw [h])
    else .isFalse (by intro hc; cases hc; exact h rfl)
  | .error x, .error y =>
    if h : x = y then .isTrue (by rw [h])
    else .isFalse (by intro hc; cases hc; exact h rfl)
  | .ok _, .error _ => .isFalse (by intro hc; cases hc)
  | .error _, .ok _ => .isFalse (by intro hc; cases hc)

/-! ## Rust `i32` bounds and `str::parse::<i32>` (core::num::from_str_radix) -/

def I32_MIN : Int := -(2 ^ 31)

def I32_MAX : Int := 2 ^ 31 - 1

/-- The error kinds of Rust's `core::num::ParseIntError` reachable from
`str::parse::<i32>` at radix 10. -/
inductive ParseIntError : Type where
  | empty
  | invalidDigit
  | posOverflow
  | negOverflow
deriving DecidableEq

/-- `Display` of `core::num::ParseIntError`. -/
def ParseIntError.message : ParseIntError → String
  | .empty => "cannot parse integer from empty string"
  | .invalidDigit => "invalid digit found in string"
  | .posOverflow => "number too large to fit in target type"
  | .negOverflow => "number too small to fit in target type"

/-- `char::to_digit(10)`: an ASCII decimal digit and its value. -/
def charToDigit (c : Char) : Option Nat :=
  if 48 ≤ c.toNat ∧ c.toNat ≤ 57 then some (c.toNat - 48) else none

/-- Positive accumulation loop of `from_str_radix`: `acc = acc * 10 + d`
with a checked-overflow test against `i32::MAX` at every step. -/
def parsePos (acc : Int) : List Char → Except ParseIntError Int
  | [] => .ok acc
  | c :: cs =>
    match charToDigit c with
    | none => .error .invalidDigit
    | some d =>
      if acc * 10 + d > I32_MAX then .error .posOverflow
      else parsePos (acc * 10 + d) cs

/-- Negative accumulation loop of `from_str_radix`: `acc = acc * 10 - d`
with a checked-overflow test against `i32::MIN` at every step. -/
def parseNeg (acc : Int) : List Char → Except ParseIntError Int
  | [] => .ok acc
  | c :: cs =>
    match charToDigit c with
    | none => .error .invalidDigit
    | some d =>
      if acc * 10 - d < I32_MIN then .error .negOverflow
      else parseNeg (acc * 10 - d) cs

/-- Rust's `"…".parse::<i32>()`: empty input is `Empty`; a bare sign is
`InvalidDigit`; otherwise the digit loop.  No whitespace trimming. -/
def parseI32 : List Char → Except ParseIntError Int
  | [] => .error .empty
  | c :: cs =>
    if c = '+' then
      if cs = [] then .error .invalidDigit else parsePos 0 cs
    else if c = '-' then
      if cs = [] then .error .invalidDigit else parseNeg 0 cs
    else
      parsePos 0 (c :: cs)

/-! ## Decimal rendering (Rust `i32::to_string`) -/

/-- The ASCII character of a decimal digit. -/
def digitChar (d : Nat) : Char := Char.ofNat (48 + d)

/-- Fuel-driven digit accumulation; `natDigits` supplies enough fuel, so
the zero-fuel branch is unreachable on its calls. -/
def natDigitsGo : Nat → Nat → List Char
  | 0, n => [digitChar n]
  | fuel + 1, n =>
    if n < 10 then [digitChar n]
    else natDigitsGo fuel (n / 10) ++ [digitChar (n % 10)]

/-- Most-significant-first decimal digits of a natural number
(`0` renders as `"0"`), as `u32::to_string` produces them. -/
def natDigits (n : Nat) : List Char := natDigitsGo n n

theorem natDigitsGo_congr : ∀ {f₁ f₂ n : Nat}, n ≤ f₁ → n ≤ f₂ →
    natDigitsGo f₁ n = natDigitsGo f₂ n := by
  intro f₁
  induction f₁ with
  | zero =>
    intro f₂ n h₁ h₂
    interval_cases n
    cases f₂ <;> simp [natDigitsGo]
  | succ f ih =>
    intro f₂ n h₁ h₂
    cases f₂ with
    | zero =>
      interval_cases n
      simp [natDigitsGo]
    | succ g =>
      simp only [natDigitsGo]
      by_cases hn : n < 10
      · simp [hn]
      · have hd : n / 10 ≤ f := by omega
        have hd' : n / 10 ≤ g := by omega
        simp [hn, ih hd hd']

/-- The recurrence `natDigits` satisfies: peel the least significant digit. -/
theorem natDigits_def (n : Nat) :
    natDigits n = if n < 10 then [digitChar n]
      else natDigits (n / 10) ++ [digitChar (n % 10)] := by
  by_cases hn : n < 10
  · cases n with
    | zero => simp [natDigits, natDigitsGo, hn]
    | succ m => simp [natDigits, natDigitsGo, hn]
  · have hpos : n ≠ 0 := by omega
    obtain ⟨m, rfl⟩ := Nat.exists_eq_succ_of_ne_zero hpos
    simp only [natDigits, natDigitsGo, hn, if_false]
    have h₁ : (m + 1) / 10 ≤ m := by omega
    rw [natDigitsGo_congr h₁ (Nat.le_refl _)]

/-- Rust `i32::to_string`: decimal digits, a leading `-` iff negative. -/
def intToDecimalString (v : Int) : String :=
  if v < 0 then ⟨'-' :: natDigits (-v).toNat⟩ else ⟨natDigits v.toNat⟩

/-! ## The serints codec (src/fxoanda_serdes/src/serints/mod.rs) -/

/-- The error a failed `serints::deserialize` reports through `serde_json`:
either the `serde::de::Error::custom(ParseIntError)` raised on line 32 for
an unparseable string, or the untagged-enum mismatch `serde` itself raises
when the JSON value is neither null, an in-range integer number, nor a
string ("data did not match any variant of untagged enum StringOrInt"). -/
inductive SerintsError : Type where
  | custom (e : ParseIntError)
  | untaggedMismatch
deriving DecidableEq

/-- The human-readable message of a `SerintsError`. -/
def SerintsError.message : SerintsError → String
  | .custom e => e.message
  | .untaggedMismatch => "data did not match any variant of untagged enum StringOrInt"

/-- `serints::serialize`: `Some(v)` becomes the JSON string
`collect_str(&v.to_string())`, `None` becomes JSON null. -/
def serintsSerialize : Option Int → Json
  | some v => .str (intToDecimalString v)
  | none => .null

/-- `serints::deserialize`: null gives `None`; the untagged
`Int(i32) | Str(String)` accepts an integer JSON number exactly when it
fits `i32` (float numbers never deserialize as `i32`), else a JSON string
which is parsed with `str::parse::<i32>`; every other JSON type fails as
an untagged-enum mismatch. -/
def serintsDeserialize : Json → Except SerintsError (Option Int)
  | .null => .ok none
  | .num (.int i) =>
    if I32_MIN ≤ i ∧ i ≤ I32_MAX then .ok (some i) else .error .untaggedMismatch
  | .num (.float _) => .error .untaggedMismatch
  | .str s =>
    match parseI32 s.data with
    | .ok v => .ok (some v)
    | .error e => .error (.custom e)
  | .bool _ => .error .untaggedMismatch
  | .arr _ => .error .untaggedMismatch
  | .obj _ => .error .untaggedMismatch

/-! ## Digit-level lemmas -/

theorem charToDigit_digitChar {d : Nat} (h : d < 10) :
    charToDigit (digitChar d) = some d := by
  interval_cases d <;> decide

theorem digitChar_ne_plus {d : Nat} (h : d < 10) : digitChar d ≠ '+' := by
  interval_cases d <;> decide

theorem digitChar_ne_minus {d : Nat} (h : d < 10) : digitChar d ≠ '-' := by
  interval_cases d <;> decide

theorem natDigits_ne_nil (n : Nat) : natDigits n ≠ [] := by
  rw [natDigits_def]
  by_cases h : n < 10 <;> simp [h]

/-- Every rendered digit list starts with a decimal digit character. -/
theorem natDigits_head (n : Nat) :
    ∃ d cs, natDigits n = digitChar d :: cs ∧ d < 10 := by
  induction n using Nat.strong_induction_on with
  | _ n ih =>
    rw [natDigits_def]
    by_cases h : n < 10
    · exact ⟨n, [], by simp [h], h⟩
    · obtain ⟨d, cs, hd, hlt⟩ := ih (n / 10) (by omega)
      exact ⟨d, cs ++ [digitChar (n % 10)], by simp [h, hd], hlt⟩

theorem natDigits_length_div {n : Nat} (h : 10 ≤ n) :
    (natDigits n).length = (natDigits (n / 10)).length + 1 := by
  conv_lhs => rw [natDigits_def]
  simp [Nat.not_lt.mpr h]

/-! ## Behaviour of the digit loops on canonical digit lists -/

theorem parsePos_append (xs ys : List Char) (acc : Int) :
    parsePos acc (xs ++ ys) = match parsePos acc xs with
      | .ok m => parsePos m ys
      | .error e => .error e := by
  induction xs generalizing acc with
  | nil => simp [parsePos]
  | cons c cs ih =>
    simp only [List.cons_append, parsePos]
    cases charToDigit c with
    | none => simp
    | some d =>
      simp only
      by_cases hov : acc * 10 + d > I32_MAX
      · simp [hov]
      · simp [hov, ih]

theorem parseNeg_append (xs ys : List Char) (acc : Int) :
    parseNeg acc (xs ++ ys) = match parseNeg acc xs with
      | .ok m => parseNeg m ys
      | .error e => .error e := by
  induction xs generalizing acc with
  | nil => simp [parseNeg]
  | cons c cs ih =>
    simp only [List.cons_append, parseNeg]
    cases charToDigit c with
    | none => simp
    | some d =>
      simp only
      by_cases hov : acc * 10 - d < I32_MIN
      · simp [hov]
      · simp [hov, ih]

/-- Full characterization of the positive digit loop on the canonical
rendering of `n`: it yields the combined value when that fits in `i32`,
and a positive-overflow error otherwise. -/
theorem parsePos_natDigits (n : Nat) :
    ∀ acc : Int, 0 ≤ acc →
      parsePos acc (natDigits n) =
        if acc * 10 ^ (natDigits n).length + n ≤ I32_MAX then
          .ok (acc * 10 ^ (natDigits n).length + n)
        else .error .posOverflow := by
  induction n using Nat.strong_induction_on with
  | _ n ih =>
    intro acc hacc
    by_cases h : n < 10
    · rw [natDigits_def, if_pos h]
      simp only [parsePos, charToDigit_digitChar h, List.length_cons,
        List.length_nil, pow_one, zero_add]
      by_cases hov : acc * 10 + n > I32_MAX
      · rw [if_pos hov, if_neg (by omega)]
      · rw [if_neg hov, if_pos (by omega)]
    · have h10 : 10 ≤ n := by omega
      conv_lhs => rw [natDigits_def, if_neg h]
      rw [parsePos_append, ih (n / 10) (by omega) acc hacc]
      rw [natDigits_length_div h10, pow_succ]
      set p : Int := 10 ^ (natDigits (n / 10)).length with hp
      have hppos : (0:Int) < p := by positivity
      have hX : 0 ≤ acc * p := by positivity
      set X : Int := acc * p with hXdef
      have hmul : acc * (p * 10) = X * 10 := by ring
      rw [hmul]
      by_cases h1 : X + (n / 10 : Nat) ≤ I32_MAX
      · rw [if_pos h1]
        simp only [parsePos, charToDigit_digitChar (Nat.mod_lt n (by omega)),
          List.append_nil]
        by_cases h2 : (X + (n / 10 : Nat)) * 10 + (n % 10 : Nat) > I32_MAX
        · rw [if_pos h2, if_neg (by simp only [I32_MAX] at *; omega)]
        · rw [if_neg h2, if_pos (by simp only [I32_MAX] at *; omega)]
          congr 1
          simp only [I32_MAX] at *
          omega
      · rw [if_neg h1]
        rw [if_neg (by simp only [I32_MAX] at *; omega)]

/-- Mirror characterization for the negative digit loop. -/
theorem parseNeg_natDigits (n : Nat) :
    ∀ acc : Int, acc ≤ 0 →
      parseNeg acc (natDigits n) =
        if I32_MIN ≤ acc * 10 ^ (natDigits n).length - n then
          .ok (acc * 10 ^ (natDigits n).length - n)
        else .error .negOverflow := by
  induction n using Nat.strong_induction_on with
  | _ n ih =>
    intro acc hacc
    by_cases h : n < 10
    · rw [natDigits_def, if_pos h]
      simp only [parseNeg, charToDigit_digitChar h, List.length_cons,
        List.length_nil, pow_one, zero_add]
      by_cases hov : acc * 10 - n < I32_MIN
      · rw [if_pos hov, if_neg (by omega)]
      · rw [if_neg hov, if_pos (by omega)]
    · have h10 : 10 ≤ n := by omega
      conv_lhs => rw [natDigits_def, if_neg h]
      rw [parseNeg_append, ih (n / 10) (by omega) acc hacc]
      rw [natDigits_length_div h10, pow_succ]
      set p : Int := 10 ^ (natDigits (n / 10)).length with hp
      have hppos : (0:Int) < p := by positivity
      have hX : acc * p ≤ 0 := mul_nonpos_of_nonpos_of_nonneg hacc (le_of_lt hppos)
      set X : Int := acc * p with hXdef
      have hmul : acc * (p * 10) = X * 10 := by ring
      rw [hmul]
      by_cases h1 : I32_MIN ≤ X - (n / 10 : Nat)
      · rw [if_pos h1]
        simp only [parseNeg, charToDigit_digitChar (Nat.mod_lt n (by omega)),
          List.append_nil]
        by_cases h2 : (X - (n / 10 : Nat)) * 10 - (n % 10 : Nat) < I32_MIN
        · rw [if_pos h2, if_neg (by simp only [I32_MIN] at *; omega)]
        · rw [if_neg h2, if_pos (by simp only [I32_MIN] at *; omega)]
          congr 1
          simp only [I32_MIN] at *
          omega
      · rw [if_neg h1]
        rw [if_neg (by simp only [I32_MIN] at *; omega)]

/-- `str::parse::<i32>` applied to `v.to_string()`: succeeds with `v`
exactly on the 32-bit signed range, and otherwise reports the overflow on
the corresponding side. -/
theorem parseI32_render (v : Int) :
    parseI32 (intToDecimalString v).data =
      if I32_MIN ≤ v ∧ v ≤ I32_MAX then .ok v
      else if 0 ≤ v then .error .posOverflow
      else .error .negOverflow := by
  by_cases hneg : v < 0
  · rw [intToDecimalString, if_pos hneg]
    show parseI32 ('-' :: natDigits (-v).toNat) = _
    rw [parseI32]
    rw [if_neg (by decide), if_pos rfl, if_neg (natDigits_ne_nil _)]
    rw [parseNeg_natDigits _ 0 (le_refl 0)]
    have hv : ((-v).toNat : Int) = -v := Int.toNat_of_nonneg (by omega)
    rw [zero_mul, zero_sub, hv]
    by_cases hmin : I32_MIN ≤ v
    · rw [if_pos (by omega), if_pos ⟨hmin, by simp only [I32_MAX]; omega⟩]
      simp
    · rw [if_neg (by omega), if_neg (by omega), if_neg (by omega)]
  · rw [intToDecimalString, if_neg hneg]
    obtain ⟨d, cs, hd, hlt⟩ := natDigits_head v.toNat
    show parseI32 (natDigits v.toNat) = _
    rw [hd, parseI32]
    rw [if_neg (digitChar_ne_plus hlt), if_neg (digitChar_ne_minus hlt), ← hd]
    rw [parsePos_natDigits _ 0 (le_refl 0)]
    have hv : (v.toNat : Int) = v := Int.toNat_of_nonneg (by omega)
    rw [zero_mul, zero_add, hv]
    by_cases hmax : v ≤ I32_MAX
    · rw [if_pos hmax, if_pos ⟨by simp only [I32_MIN]; omega, hmax⟩]
    · rw [if_neg hmax, if_neg (by omega), if_pos (by omega)]

/-! ## Claims about the integer codec -/

/-- C1: for every 32-bit signed integer `v`, encoding `Some(v)` with the
integer codec and then decoding the result yields `Some(v)`. -/
theorem serints_roundtrip (v : Int) (h₁ : I32_MIN ≤ v) (h₂ : v ≤ I32_MAX) :
    serintsDeserialize (serintsSerialize (some v)) = .ok (some v) := by
  simp only [serintsSerialize, serintsDeserialize]
  rw [parseI32_render, if_pos ⟨h₁, h₂⟩]

theorem serints_roundtrip_witness :
    serintsDeserialize (serintsSerialize (some 42)) = .ok (some 42) :=
  serints_roundtrip 42 (by decide) (by decide)

/-- C3: the integer codec's decode accepts both the JSON number `n` and the
JSON string of the decimal form of `n`, both yielding `Some(n)`, for every
32-bit signed `n`; in particular both the number `42` and the string
`"42"` decode to `Some(42)`. -/
theorem serints_dual_representation :
    (∀ n : Int, I32_MIN ≤ n → n ≤ I32_MAX →
      serintsDeserialize (.num (.int n)) = .ok (some n) ∧
      serintsDeserialize (.str (intToDecimalString n)) = .ok (some n)) ∧
    serintsDeserialize (.num (.int 42)) = .ok (some 42) ∧
    serintsDeserialize (.str "42") = .ok (some 42) := by
  refine ⟨fun n h₁ h₂ => ⟨?_, ?_⟩, by decide, by decide⟩
  · simp [serintsDeserialize, h₁, h₂]
  · simp only [serintsDeserialize]
    rw [parseI32_render, if_pos ⟨h₁, h₂⟩]

theorem serints_dual_representation_witness :
    serintsDeserialize (.num (.int 7)) = .ok (some 7) ∧
    serintsDeserialize (.str (intToDecimalString 7)) = .ok (some 7) :=
  serints_dual_representation.1 7 (by decide) (by decide)

/-- C6 counterexample: on the unparseable string `"not_a_number"` the
integer codec fails, but the error is the serde-custom wrap of
`ParseIntError`, whose message is `"invalid digit found in string"` — not
a `DecodeError` with reason `"not a valid integer string"`, and it does
not carry the offending string (the `SerintsError.custom` constructor has
no value payload). -/
theorem serints_parse_error_shape_counterexample :
    serintsDeserialize (.str "not_a_number") =
      .error (.custom .invalidDigit) ∧
    (SerintsError.custom .invalidDigit).message = "invalid digit found in string" ∧
    "invalid digit found in string" ≠ "not a valid integer string" := by
  refine ⟨by decide, by decide, by decide⟩

/-- C6 (amended): when the integer codec's decode receives a JSON string
that does not parse as a base-10 signed `i32`, it fails with the
serde-custom error wrapping the `ParseIntError`; the message is the core
parse error's description and never `"not a valid integer string"`, and
the error carries no copy of the original string. -/
theorem serints_parse_error_shape (s : String) (e : ParseIntError)
    (h : parseI32 s.data = .error e) :
    serintsDeserialize (.str s) = .error (.custom e) ∧
    (SerintsError.custom e).message ∈
      ["cannot parse integer from empty string",
       "invalid digit found in string",
       "number too large to fit in target type",
       "number too small to fit in target type"] ∧
    (SerintsError.custom e).message ≠ "not a valid integer string" := by
  refine ⟨by simp [serintsDeserialize, h], ?_, ?_⟩
  · cases e <;> simp [SerintsError.message, ParseIntError.message]
  · cases e <;> decide

theorem serints_parse_error_shape_witness :
    serintsDeserialize (.str "not_a_number") =
      .error (.custom ParseIntError.invalidDigit) ∧
    (SerintsError.custom ParseIntError.invalidDigit).message ∈
      ["cannot parse integer from empty string",
       "invalid digit found in string",
       "number too large to fit in target type",
       "number too small to fit in target type"] ∧
    (SerintsError.custom ParseIntError.invalidDigit).message ≠
      "not a valid integer string" :=
  serints_parse_error_shape "not_a_number" .invalidDigit (by decide)

/-- C7: the integer codec's decode fails with an error — never the absent
value, never a truncated or wrapped value — on the empty string, on a
string with surrounding whitespace such as `" 5"`, and on any decimal
string whose value lies outside the 32-bit signed range. -/
theorem serints_string_failures :
    serintsDeserialize (.str "") = .error (.custom .empty) ∧
    serintsDeserialize (.str " 5") = .error (.custom .invalidDigit) ∧
    (∀ v : Int, I32_MAX < v →
      serintsDeserialize (.str (intToDecimalString v)) =
        .error (.custom .posOverflow)) ∧
    (∀ v : Int, v < I32_MIN →
      serintsDeserialize (.str (intToDecimalString v)) =
        .error (.custom .negOverflow)) := by
  refine ⟨by decide, by decide, fun v hv => ?_, fun v hv => ?_⟩
  · simp only [serintsDeserialize]
    rw [parseI32_render, if_neg (by omega),
      if_pos (by simp only [I32_MAX] at hv; omega)]
  · simp only [serintsDeserialize]
    rw [parseI32_render, if_neg (by omega),
      if_neg (by simp only [I32_MIN] at hv; omega)]

theorem serints_string_failures_witness :
    serintsDeserialize (.str (intToDecimalString (2 ^ 31))) =
      .error (.custom ParseIntError.posOverflow) :=
  serints_string_failures.2.2.1 (2 ^ 31) (by decide)

/-- C10: a JSON number that is not an exact 32-bit signed integer — an
integer outside the `i32` range or any floating-point number such as
`4.5` — fails the integer codec's decode with the untagged-enum mismatch;
the successful numeric path exists exactly for in-range integers. -/
theorem serints_number_range :
    (∀ i : Int, i < I32_MIN ∨ I32_MAX < i →
      serintsDeserialize (.num (.int i)) = .error .untaggedMismatch) ∧
    (∀ q : Rat, serintsDeserialize (.num (.float q)) = .error .untaggedMismatch) ∧
    serintsDeserialize (.num (.float (45 / 10))) = .error .untaggedMismatch ∧
    (∀ i : Int, I32_MIN ≤ i → i ≤ I32_MAX →
      serintsDeserialize (.num (.int i)) = .ok (some i)) := by
  refine ⟨fun i hi => ?_, fun q => rfl, rfl, fun i h₁ h₂ => ?_⟩
  · simp only [serintsDeserialize]
    rw [if_neg (by rcases hi with h | h <;> omega)]
  · simp [serintsDeserialize, h₁, h₂]

theorem serints_number_range_witness :
    serintsDeserialize (.num (.int (2 ^ 31))) = .error .untaggedMismatch :=
  serints_number_range.1 (2 ^ 31) (by decide)

/-! ## Timestamp model

The `fxoanda_serdes::serdates` module itself is not part of the repository
snapshot (only its callers and tests are), so the timestamp codec below is
modelled from the specification, §3 and §4.2.  A timestamp is a UTC
calendar instant with nanosecond resolution. -/

structure Timestamp where
  year : Nat
  month : Nat
  day : Nat
  hour : Nat
  minute : Nat
  second : Nat
  nanos : Nat
deriving DecidableEq

def isLeapYear (y : Nat) : Bool :=
  y % 4 == 0 && (y % 100 != 0 || y % 400 == 0)

def daysInMonth (y m : Nat) : Nat :=
  if m = 2 then (if isLeapYear y then 29 else 28)
  else if m = 4 ∨ m = 6 ∨ m = 9 ∨ m = 11 then 30
  else 31

/-- The calendar instants representable as RFC3339 strings (four-digit
year) with nanosecond-or-coarser precision. -/
def Timestamp.Valid (t : Timestamp) : Prop :=
  t.year ≤ 9999 ∧ 1 ≤ t.month ∧ t.month ≤ 12 ∧ 1 ≤ t.day ∧
  t.day ≤ daysInMonth t.year t.month ∧ t.hour ≤ 23 ∧ t.minute ≤ 59 ∧
  t.second ≤ 59 ∧ t.nanos < 1000000000

instance (t : Timestamp) : Decidable t.Valid := by
  unfold Timestamp.Valid; infer_instance

/-! ## RFC3339 rendering -/

def pad2 (n : Nat) : List Char :=
  [digitChar (n / 10 % 10), digitChar (n % 10)]

def pad4 (n : Nat) : List Char :=
  [digitChar (n / 1000 % 10), digitChar (n / 100 % 10),
   digitChar (n / 10 % 10), digitChar (n % 10)]

def pad9 (n : Nat) : List Char :=
  [digitChar (n / 100000000 % 10), digitChar (n / 10000000 % 10),
   digitChar (n / 1000000 % 10), digitChar (n / 100000 % 10),
   digitChar (n / 10000 % 10), digitChar (n / 1000 % 10),
   digitChar (n / 100 % 10), digitChar (n / 10 % 10), digitChar (n % 10)]

/-- Modelled from the spec: the RFC3339 form emitted for a present
timestamp — UTC with a `Z` suffix, the fractional part present (at full
nanosecond width, a choice §4.2 leaves to the implementation) exactly when
the instant carries sub-second precision. -/
def formatRFC3339 (t : Timestamp) : List Char :=
  pad4 t.year ++ ['-'] ++ pad2 t.month ++ ['-'] ++ pad2 t.day ++ ['T'] ++
  pad2 t.hour ++ [':'] ++ pad2 t.minute ++ [':'] ++ pad2 t.second ++
  (if t.nanos = 0 then [] else '.' :: pad9 t.nanos) ++ ['Z']

/-! ## RFC3339 parsing -/

def read2 : List Char → Option (Nat × List Char)
  | a :: b :: rest => do
    let x ← charToDigit a
    let y ← charToDigit b
    some (10 * x + y, rest)
  | _ => none

def read4 : List Char → Option (Nat × List Char)
  | a :: b :: c :: d :: rest => do
    let x₁ ← charToDigit a
    let x₂ ← charToDigit b
    let x₃ ← charToDigit c
    let x₄ ← charToDigit d
    some (1000 * x₁ + 100 * x₂ + 10 * x₃ + x₄, rest)
  | _ => none

def expect (c : Char) : List Char → Option (List Char)
  | d :: rest => if d = c then some rest else none
  | [] => none

/-- The date/time separator: `T`, lowercase accepted. -/
def readT : List Char → Option (List Char)
  | c :: rest => if c = 'T' ∨ c = 't' then some rest else none
  | [] => none

/-- Greedy digit run: accumulated value, number of digits, rest. -/
def fracGo : List Char → Nat → Nat → Nat × Nat × List Char
  | [], v, k => (v, k, [])
  | c :: cs, v, k =>
    match charToDigit c with
    | some d => fracGo cs (10 * v + d) (k + 1)
    | none => (v, k, c :: cs)

/-- A fractional-second run of 1–9 digits, scaled to nanoseconds. -/
def readFrac (s : List Char) : Option (Nat × List Char) :=
  let (v, k, rest) := fracGo s 0 0
  if 1 ≤ k ∧ k ≤ 9 then some (v * 10 ^ (9 - k), rest) else none

/-- The optional fractional-second component after the seconds field. -/
def readFracOpt : List Char → Option (Nat × List Char)
  | c :: rest => if c = '.' then readFrac rest else some (0, c :: rest)
  | [] => some (0, [])

/-- The UTC designator `Z`/`z` or an explicit numeric offset, in minutes. -/
def readOffset : List Char → Option (Int × List Char)
  | [] => none
  | c :: rest =>
    if c = 'Z' ∨ c = 'z' then some (0, rest)
    else if c = '+' ∨ c = '-' then do
      let (oh, r₁) ← read2 rest
      let r₂ ← expect ':' r₁
      let (om, r₃) ← read2 r₂
      if oh ≤ 23 ∧ om ≤ 59 then
        some (if c = '+' then (oh * 60 + om : Int) else -(oh * 60 + om : Int), r₃)
      else none
    else none

/-- Days since 1970-01-01 of a civil date (Howard Hinnant's algorithm,
as used by chrono); needed only to normalize non-UTC offsets. -/
def daysFromCivil (y : Int) (m d : Nat) : Int :=
  let y' : Int := if m ≤ 2 then y - 1 else y
  let era : Int := (if 0 ≤ y' then y' else y' - 399) / 400
  let yoe : Int := y' - era * 400
  let doy : Int := (153 * (if 2 < m then (m : Int) - 3 else (m : Int) + 9) + 2) / 5 + d - 1
  let doe : Int := yoe * 365 + yoe / 4 - yoe / 100 + doy
  era * 146097 + doe - 719468

/-- Civil date of a days-since-epoch count (inverse of `daysFromCivil`). -/
def civilFromDays (z0 : Int) : Int × Nat × Nat :=
  let z : Int := z0 + 719468
  let era : Int := (if 0 ≤ z then z else z - 146096) / 146097
  let doe : Nat := (z - era * 146097).toNat
  let yoe : Nat := (doe - doe / 1460 + doe / 36524 - doe / 146096) / 365
  let y : Int := (yoe : Int) + era * 400
  let doy : Nat := doe - (365 * yoe + yoe / 4 - yoe / 100)
  let mp : Nat := (5 * doy + 2) / 153
  let d : Nat := doy - (153 * mp + 2) / 5 + 1
  let m : Nat := if mp < 10 then mp + 3 else mp - 9
  (if m ≤ 2 then y + 1 else y, m, d)

/-- Normalize a parsed instant with a non-UTC offset to UTC.  Fails only
when the UTC instant falls outside the four-digit-year range RFC3339 can
express. -/
def adjustToUTC (y mo d h mi sec nanos : Nat) (offset : Int) : Option Timestamp :=
  let days : Int := daysFromCivil y mo d
  let totalMin : Int := (days * 24 + h) * 60 + mi - offset
  let dayMin : Int := totalMin.emod 1440
  let days' : Int := (totalMin - dayMin) / 1440
  let c := civilFromDays days'
  if 0 ≤ c.1 ∧ c.1 ≤ 9999 then
    some ⟨c.1.toNat, c.2.1, c.2.2, (dayMin / 60).toNat, (dayMin % 60).toNat,
          sec, nanos⟩
  else none

/-- The `YYYY-MM-DD` date part: year, month, day and the rest. -/
def parseDate (s : List Char) : Option (Nat × Nat × Nat × List Char) :=
  (read4 s).bind fun y =>
  (expect '-' y.2).bind fun r₂ =>
  (read2 r₂).bind fun mo =>
  (expect '-' mo.2).bind fun r₄ =>
  (read2 r₄).bind fun d =>
  some (y.1, mo.1, d.1, d.2)

/-- The `hh:mm:ss` time part: hour, minute, second and the rest. -/
def parseTime (s : List Char) : Option (Nat × Nat × Nat × List Char) :=
  (read2 s).bind fun h =>
  (expect ':' h.2).bind fun r₂ =>
  (read2 r₂).bind fun mi =>
  (expect ':' mi.2).bind fun r₄ =>
  (read2 r₄).bind fun sec =>
  some (h.1, mi.1, sec.1, sec.2)

/-- Modelled from the spec (§4.2, the missing `serdates` module): parse an
RFC3339 timestamp — date, `T`, time, optional fractional seconds of 1–9
digits, and `Z` or an explicit numeric UTC offset; reject out-of-range
fields and trailing input. -/
def parseRFC3339 (s : List Char) : Option Timestamp :=
  (parseDate s).bind fun dt =>
  (readT dt.2.2.2).bind fun r =>
  (parseTime r).bind fun tm =>
  (readFracOpt tm.2.2.2).bind fun nanos =>
  (readOffset nanos.2).bind fun off =>
  if off.2 = [] ∧ 1 ≤ dt.2.1 ∧ dt.2.1 ≤ 12 ∧ 1 ≤ dt.2.2.1 ∧
      dt.2.2.1 ≤ daysInMonth dt.1 dt.2.1 ∧ tm.1 ≤ 23 ∧ tm.2.1 ≤ 59 ∧
      tm.2.2.1 ≤ 59 then
    if off.1 = 0 then
      some ⟨dt.1, dt.2.1, dt.2.2.1, tm.1, tm.2.1, tm.2.2.1, nanos.1⟩
    else adjustToUTC dt.1 dt.2.1 dt.2.2.1 tm.1 tm.2.1 tm.2.2.1 nanos.1 off.1
  else none

/-! ## The serdates codec (modelled from the spec) -/

/-- Modelled from the spec: the decode failures of the timestamp codec
(§4.2) — an unparseable string carrying the original value, or an
unsupported JSON type (number, bool, array, object). -/
inductive SerdatesError : Type where
  | invalidTimestamp (value : String)
  | unsupportedType
deriving DecidableEq

/-- Modelled from the spec: `serdates::serialize` — absent emits JSON
null, present emits the RFC3339 string in UTC. -/
def serdatesSerialize : Option Timestamp → Json
  | some t => .str ⟨formatRFC3339 t⟩
  | none => .null

/-- Modelled from the spec: `serdates::deserialize` — null and the exact
sentinel string `"0"` give the absent value; any other string must parse
as RFC3339; every non-string, non-null JSON type fails. -/
def serdatesDeserialize : Json → Except SerdatesError (Option Timestamp)
  | .null => .ok none
  | .str s =>
    if s = "0" then .ok none
    else
      match parseRFC3339 s.data with
      | some t => .ok (some t)
      | none => .error (.invalidTimestamp s)
  | .num _ => .error .unsupportedType
  | .bool _ => .error .unsupportedType
  | .arr _ => .error .unsupportedType
  | .obj _ => .error .unsupportedType

/-! ## Round-trip lemmas for the RFC3339 rendering -/

theorem charToDigit_digitChar_mod (m : Nat) :
    charToDigit (digitChar (m % 10)) = some (m % 10) :=
  charToDigit_digitChar (Nat.mod_lt _ (by omega))

theorem charToDigit_Z : charToDigit 'Z' = none := by decide

theorem read2_pad2 {n : Nat} (h : n ≤ 99) (r : List Char) :
    read2 (pad2 n ++ r) = some (n, r) := by
  simp only [pad2, List.cons_append, List.nil_append, read2,
    charToDigit_digitChar_mod, Option.bind_eq_bind, Option.some_bind]
  have : 10 * (n / 10 % 10) + n % 10 = n := by omega
  rw [this]

theorem read4_pad4 {n : Nat} (h : n ≤ 9999) (r : List Char) :
    read4 (pad4 n ++ r) = some (n, r) := by
  simp only [pad4, List.cons_append, List.nil_append, read4,
    charToDigit_digitChar_mod, Option.bind_eq_bind, Option.some_bind]
  have : 1000 * (n / 1000 % 10) + 100 * (n / 100 % 10) + 10 * (n / 10 % 10)
      + n % 10 = n := by omega
  rw [this]

theorem expect_cons (c : Char) (r : List Char) : expect c (c :: r) = some r := by
  simp [expect]

theorem readT_cons (r : List Char) : readT ('T' :: r) = some r := by
  simp [readT]

theorem readFracOpt_Z (r : List Char) :
    readFracOpt ('Z' :: r) = some (0, 'Z' :: r) := by
  simp [readFracOpt]

theorem readFracOpt_dot (r : List Char) :
    readFracOpt ('.' :: r) = readFrac r := by
  simp [readFracOpt]

theorem readOffset_Z (r : List Char) : readOffset ('Z' :: r) = some (0, r) := by
  simp [readOffset]

theorem fracGo_pad9 {n : Nat} (r : List Char) :
    fracGo (pad9 n ++ 'Z' :: r) 0 0 = (n % 1000000000, 9, 'Z' :: r) := by
  simp only [pad9, List.cons_append, List.nil_append, fracGo,
    charToDigit_digitChar_mod, charToDigit_Z]
  refine Prod.ext ?_ rfl
  show _ = n % 1000000000
  omega

theorem readFrac_pad9 {n : Nat} (h : n < 1000000000) (r : List Char) :
    readFrac (pad9 n ++ 'Z' :: r) = some (n, 'Z' :: r) := by
  rw [readFrac, fracGo_pad9]
  norm_num [Nat.mod_eq_of_lt h]

/-- The rendered RFC3339 string is never the `"0"` sentinel. -/
theorem formatRFC3339_ne_zero (t : Timestamp) :
    (⟨formatRFC3339 t⟩ : String) ≠ "0" := by
  intro hcontra
  have h' : formatRFC3339 t = "0".data := congrArg String.data hcontra
  have hlen := congrArg List.length h'
  have h1 : ("0".data).length = 1 := by decide
  rw [h1] at hlen
  simp only [formatRFC3339, pad4, pad2, List.length_append, List.length_cons,
    List.length_nil] at hlen
  omega

theorem parseDate_pads {y mo d : Nat} (hy : y ≤ 9999) (hmo : mo ≤ 99)
    (hd : d ≤ 99) (r : List Char) :
    parseDate (pad4 y ++ '-' :: (pad2 mo ++ '-' :: (pad2 d ++ r))) =
      some (y, mo, d, r) := by
  simp only [parseDate, read4_pad4 hy, Option.some_bind, expect_cons,
    read2_pad2 hmo, read2_pad2 hd]

theorem parseTime_pads {h mi sec : Nat} (hh : h ≤ 99) (hmi : mi ≤ 99)
    (hs : sec ≤ 99) (r : List Char) :
    parseTime (pad2 h ++ ':' :: (pad2 mi ++ ':' :: (pad2 sec ++ r))) =
      some (h, mi, sec, r) := by
  simp only [parseTime, read2_pad2 hh, Option.some_bind, expect_cons,
    read2_pad2 hmi, read2_pad2 hs]

/-- Parsing inverts rendering on every valid timestamp. -/
theorem parseRFC3339_format (t : Timestamp) (h : t.Valid) :
    parseRFC3339 (formatRFC3339 t) = some t := by
  obtain ⟨hy, hmo1, hmo2, hd1, hd2, hh, hmi, hs, hn⟩ := h
  have hmo99 : t.month ≤ 99 := by omega
  have hd99 : t.day ≤ 99 := by
    have : daysInMonth t.year t.month ≤ 31 := by
      unfold daysInMonth
      split <;> [split <;> omega; (split <;> omega)]
    omega
  have hh99 : t.hour ≤ 99 := by omega
  have hmi99 : t.minute ≤ 99 := by omega
  have hs99 : t.second ≤ 99 := by omega
  by_cases hz : t.nanos = 0
  · rw [formatRFC3339, hz, if_pos rfl]
    simp only [List.append_assoc, List.singleton_append, List.cons_append,
      List.nil_append]
    rw [parseRFC3339, parseDate_pads hy hmo99 hd99]
    simp only [Option.some_bind]
    rw [readT_cons]
    simp only [Option.some_bind]
    rw [parseTime_pads hh99 hmi99 hs99]
    simp only [Option.some_bind]
    rw [readFracOpt_Z]
    simp only [Option.some_bind]
    rw [readOffset_Z]
    simp only [Option.some_bind]
    rw [if_pos ⟨trivial, hmo1, hmo2, hd1, hd2, hh, hmi, hs⟩, ← hz]
    rfl
  · rw [formatRFC3339, if_neg hz]
    simp only [List.append_assoc, List.singleton_append, List.cons_append,
      List.nil_append]
    rw [parseRFC3339, parseDate_pads hy hmo99 hd99]
    simp only [Option.some_bind]
    rw [readT_cons]
    simp only [Option.some_bind]
    rw [parseTime_pads hh99 hmi99 hs99]
    simp only [Option.some_bind]
    rw [readFracOpt_dot, readFrac_pad9 hn]
    simp only [Option.some_bind]
    rw [readOffset_Z]
    simp only [Option.some_bind]
    rw [if_pos ⟨trivial, hmo1, hmo2, hd1, hd2, hh, hmi, hs⟩]
    rfl


/-! ## Claims about the timestamp codec -/

/-- C2: the timestamp codec's decode maps exactly the JSON string `"0"` to
the absent value, while `"00"` is not treated as the sentinel and fails
decoding with an error. -/
theorem serdates_sentinel :
    serdatesDeserialize (.str "0") = .ok none ∧
    serdatesDeserialize (.str "00") = .error (.invalidTimestamp "00") :=
  ⟨by decide, by decide⟩

/-- C4: for both codecs, encoding the absent value yields JSON null, and
decoding that encoding yields the absent value again. -/
theorem codecs_absence_symmetry :
    serintsSerialize none = .null ∧
    serintsDeserialize (serintsSerialize none) = .ok none ∧
    serdatesSerialize none = .null ∧
    serdatesDeserialize (serdatesSerialize none) = .ok none :=
  ⟨rfl, by decide, rfl, by decide⟩

/-- C5: every valid timestamp round-trips exactly through the timestamp
codec, and in particular `"2023-12-01T15:30:45.123456789Z"` decodes
successfully and re-encodes to the same string, preserving all nine
fractional digits. -/
theorem serdates_roundtrip :
    (∀ t : Timestamp, t.Valid →
      serdatesDeserialize (serdatesSerialize (some t)) = .ok (some t)) ∧
    serdatesDeserialize (.str "2023-12-01T15:30:45.123456789Z") =
      .ok (some ⟨2023, 12, 1, 15, 30, 45, 123456789⟩) ∧
    serdatesSerialize (some ⟨2023, 12, 1, 15, 30, 45, 123456789⟩) =
      .str "2023-12-01T15:30:45.123456789Z" := by
  refine ⟨fun t ht => ?_, by decide, congrArg Json.str (by decide)⟩
  simp only [serdatesSerialize, serdatesDeserialize]
  rw [if_neg (formatRFC3339_ne_zero t)]
  simp only [parseRFC3339_format t ht]

theorem serdates_roundtrip_witness :
    serdatesDeserialize (serdatesSerialize (some ⟨2024, 1, 15, 9, 45, 30, 0⟩)) =
      .ok (some ⟨2024, 1, 15, 9, 45, 30, 0⟩) :=
  serdates_roundtrip.1 ⟨2024, 1, 15, 9, 45, 30, 0⟩ (by decide)

/-- C8: decoding a JSON value of an unsupported type fails for both codecs
— bool, object and array on the integer codec; bool, object, array and
number on the timestamp codec. -/
theorem codecs_type_rejection :
    serintsDeserialize (.bool true) = .error .untaggedMismatch ∧
    (∀ b : Bool, serintsDeserialize (.bool b) = .error .untaggedMismatch) ∧
    (∀ l : List Json, serintsDeserialize (.arr l) = .error .untaggedMismatch) ∧
    (∀ f : List (String × Json),
      serintsDeserialize (.obj f) = .error .untaggedMismatch) ∧
    serdatesDeserialize (.bool true) = .error .unsupportedType ∧
    (∀ b : Bool, serdatesDeserialize (.bool b) = .error .unsupportedType) ∧
    (∀ l : List Json, serdatesDeserialize (.arr l) = .error .unsupportedType) ∧
    (∀ f : List (String × Json),
      serdatesDeserialize (.obj f) = .error .unsupportedType) ∧
    (∀ n : JNumber, serdatesDeserialize (.num n) = .error .unsupportedType) ∧
    serdatesDeserialize (.num (.int 123)) = .error .unsupportedType :=
  ⟨rfl, fun _ => rfl, fun _ => rfl, fun _ => rfl, rfl, fun _ => rfl,
   fun _ => rfl, fun _ => rfl, fun _ => rfl, rfl⟩

/-! ## Error taxonomy and response decoding
(src/src/errors.rs; src/src/instrument.rs line 304) -/

/-- The request-validation errors of src/src/errors.rs lines 4-11. -/
inductive RequestValidationError : Type where
  | missingAccountId
  | missingTradeSpecifier
  | missingInstrument
  | missingTransactionId
  | missingOrderSpecifier
deriving DecidableEq

/-- The error taxonomy of src/src/errors.rs lines 32-51. -/
inductive FxError : Type where
  | orderRejection (instrument units rejectReason errorCode errorMessage : String)
  | apiError (statusCode : Nat) (errorCode errorMessage : String)
  | deserializationError (path message : String)
  | httpError (msg : String)
  | validation (err : RequestValidationError)
deriving DecidableEq

/-- A `reqwest::Error` as it reaches the response-decoding call site of
`remote` (the error of `Response::json::<T>()`), modelled opaquely by its
rendered `Display` message. -/
structure ReqwestError : Type where
  message : String
deriving DecidableEq

/-- `From<reqwest::Error> for FxError` (src/src/errors.rs lines 86-90):
`FxError::HttpError(err.to_string())`. -/
def fxErrorFromReqwest (e : ReqwestError) : FxError := .httpError e.message

/-- A `serde_path_to_error::Error<serde_json::Error>`: the path to the
failing field and the inner serde message. -/
structure SerdePathError : Type where
  path : String
  inner : String
deriving DecidableEq

/-- `From<serde_path_to_error::Error<serde_json::Error>> for FxError`
(src/src/errors.rs lines 92-99): a path-annotated
`FxError::DeserializationError`. -/
def fxErrorFromPathError (e : SerdePathError) : FxError :=
  .deserializationError e.path e.inner

/-- The final decoding step of `GetInstrumentCandlesRequest::remote`
(src/src/instrument.rs line 304):
`response.json::<…>().await.map_err(FxError::from)`.  The error of
`Response::json` is a `reqwest::Error`, so the applied conversion is
`From<reqwest::Error>`. -/
def remoteDecodeResult (α : Type) (r : Except ReqwestError α) : Except FxError α :=
  r.mapError fxErrorFromReqwest

/-- Whether a decode outcome failed with the path-annotated
`FxError::DeserializationError`. -/
def isPathAnnotatedFailure {α : Type} : Except FxError α → Bool
  | .error (.deserializationError _ _) => true
  | _ => false

/-- C9 counterexample: at the decode site of `remote`, a failed response
deserialization surfaces as `FxError::HttpError` wrapping the transport
error's message — not as the path-annotated
`FxError::DeserializationError` the claim describes. -/
theorem remote_decode_error_counterexample :
    remoteDecodeResult Unit (.error ⟨"error decoding response body"⟩) =
      .error (.httpError "error decoding response body") ∧
    isPathAnnotatedFailure
      (remoteDecodeResult Unit (.error ⟨"error decoding response body"⟩)) =
      false :=
  ⟨rfl, rfl⟩

/-- C9 (amended): a field-level decode failure fails the entire response
deserialization immediately — the result is an error, never a default or
partial value — but the surfaced error at `remote` is
`FxError::HttpError` with the transport error's message; the
path-annotated `From<serde_path_to_error::Error>` conversion exists in
errors.rs yet is not the one applied on this path. -/
theorem remote_decode_error_propagation :
    (∀ e : ReqwestError,
      remoteDecodeResult Unit (.error e) = .error (.httpError e.message)) ∧
    (∀ e : ReqwestError, ∀ a : Unit,
      remoteDecodeResult Unit (.error e) ≠ .ok a) ∧
    (∀ pe : SerdePathError,
      fxErrorFromPathError pe = .deserializationError pe.path pe.inner) ∧
    (∀ a : Unit, remoteDecodeResult Unit (.ok a) = .ok a) := by
  refine ⟨fun e => rfl, fun e a hc => ?_, fun pe => rfl, fun a => rfl⟩
  simp [remoteDecodeResult, Except.mapError] at hc

end Fxoanda
